import Mathlib

/-!
Verification of the RTEMS YAFFS adapter (`rtems/rtems_yaffs.c`).

This file gives a shallow embedding of the adapter's namespace resolver
(`h_find_object` / `h_follow_link`), the VFS dispatch handlers
(`ycb_mknod`, `ycb_chown`, `ycb_fchmod`, `ycb_fstat`, `ycb_dir_read`,
`ycb_file_read`, `ycb_file_write`) and proves properties of them.

The object-graph engine (yaffs_guts) is not part of the source under
verification; its primitives (find-child-by-name, resolve-equivalent,
get-length, create, read, write, flush) are modelled from the spec's
description of the fixed primitive surface, or taken as function
parameters where only their result matters.
-/

namespace RtemsYaffs

/-- POSIX-style error vocabulary of the adapter; `EOK` stands for `errno = 0`
(no error recorded). -/
inductive Errno
  | EOK | ENOENT | EEXIST | EROFS | ENOSPC | Eio | EINVAL
  | ENOTEMPTY | ENOSYS | ENOTSUP | ENOMEM
deriving DecidableEq, Repr

/-- Object variant tag (`yaffs_obj_type`).  A symlink carries its alias
string, a hardlink carries the id of its equivalent object. -/
inductive Variant
  | file
  | directory
  | symlink (target : List Char)
  | hardlink (equiv : Nat)
  | special
  | unknown
deriving DecidableEq, Repr

/-- Whether the variant is the Directory tag. -/
def Variant.isDir : Variant → Bool
  | .directory => true
  | _ => false

/-- Whether the variant is the Symlink tag. -/
def Variant.isSymlink : Variant → Bool
  | .symlink _ => true
  | _ => false

/-- Whether the variant is the Hardlink tag. -/
def Variant.isHardlink : Variant → Bool
  | .hardlink _ => true
  | _ => false

/-- Whether the variant is the File tag. -/
def Variant.isFile : Variant → Bool
  | .file => true
  | _ => false

/-- A node of the object graph (`struct yaffs_obj`), with the metadata the
adapter reads.  `fileLength` models the engine's get-length primitive and
`nlink` its get-link-count primitive (both modelled from the spec's fixed
primitive surface); `children` lists the child ids of a directory in
sibling order. -/
structure Obj where
  oid : Nat
  parent : Option Nat
  variant : Variant
  name : List Char
  children : List Nat
  yst_mode : Nat
  yst_atime : Nat
  yst_ctime : Nat
  yst_mtime : Nat
  yst_rdev : Nat
  fileLength : Nat
  nlink : Nat
deriving DecidableEq, Repr

/-- A mounted volume (`struct yaffs_dev`): the finite object graph, the
root directory id, the mounted flag and the allocation unit
(`data_bytes_per_chunk`). -/
structure Dev where
  objs : List Obj
  root_dir : Nat
  is_mounted : Bool
  data_bytes_per_chunk : Nat
deriving DecidableEq, Repr

/-- Look an object up by id in the graph. -/
def Dev.find (dev : Dev) (i : Nat) : Option Obj :=
  dev.objs.find? (fun o => o.oid == i)

/-- Variant of the object with id `i` (Unknown for an absent id). -/
def variantOf (dev : Dev) (i : Nat) : Variant :=
  ((dev.find i).map Obj.variant).getD .unknown

/-- Parent id of the object with id `i` (`obj->parent`). -/
def parentOf (dev : Dev) (i : Nat) : Option Nat :=
  (dev.find i).bind Obj.parent

/-- Modelled from the spec: the engine's get-name primitive
(`yaffs_get_obj_name`); returns the object's stored name. -/
def nameOf (dev : Dev) (i : Nat) : List Char :=
  ((dev.find i).map Obj.name).getD []

/-- Modelled from the spec: resolve-equivalent(object) → object, identity
for non-hardlinks (`yaffs_get_equivalent_obj`); a hardlink resolves to the
id of its equivalent object, the real target. -/
def yaffs_get_equivalent_obj (dev : Dev) (i : Nat) : Nat :=
  match variantOf dev i with
  | .hardlink e => e
  | _ => i

/-- Modelled from the spec: find-child-by-name(directory, name) → object
or absent (`yaffs_find_by_name`), by exact name match over the
directory's children. -/
def yaffs_find_by_name (dev : Dev) (d : Nat) (nm : List Char) : Option Nat :=
  match dev.find d with
  | none => none
  | some o => o.children.find? (fun c => nameOf dev c == nm)

/-- Modelled from the spec: the port's path-separator set
(`YAFFS_PATH_DIVIDERS`); the adapter's own strchr calls use `'/'`. -/
def YAFFS_PATH_DIVIDERS : List Char := ['/']

/-- Source `is_path_divider`: membership of the character in the divider
set. -/
def is_path_divider (c : Char) : Bool :=
  YAFFS_PATH_DIVIDERS.contains c

/-- Maximum name length kept by the tokenizer (`YAFFS_MAX_NAME_LENGTH`). -/
def YAFFS_MAX_NAME_LENGTH : Nat := 255

/-- Drop a run of leading path dividers (the resolver's
`while(is_path_divider(*pathname)) pathname++`). -/
def skipDividers (p : List Char) : List Char :=
  p.dropWhile is_path_divider

/-- The next path segment: after skipping leading dividers, the maximal
run of non-divider characters, truncated to the maximum name length
(characters beyond the limit are dropped from the token but still
consumed from the input). -/
def tokenOf (p : List Char) : List Char :=
  ((skipDividers p).takeWhile (fun c => !is_path_divider c)).take YAFFS_MAX_NAME_LENGTH

/-- The rest of the path after the next segment (dividers between the
segment and the following one are not yet consumed). -/
def restOf (p : List Char) : List Char :=
  (skipDividers p).dropWhile (fun c => !is_path_divider c)

/-- The pair a resolver call leaves behind: the returned object pointer
and the final value of the `*out_of_fs` escape out-parameter.  A
not-found failure is `⟨none, none⟩`; the mount-crossing escape is
`⟨none, some suffix⟩`. -/
structure FindOut where
  obj : Option Nat
  out_of_fs : Option (List Char)
deriving DecidableEq, Repr

/-- The special case at the top of `h_find_object`: the path contains no
`'/'` and the starting reference's own name equals the whole path (the
divider test is a literal `strchr(pathname, '/')` in the source). -/
def specialHit (dev : Dev) (dir : Option Nat) (p : List Char) : Bool :=
  !(p.contains '/') &&
    (match dir with
     | some d => nameOf dev d == p
     | none => false)

/-- Which of the three mutually recursive resolver entry points is being
run: `h_find_object`, its walking loop, `h_follow_link`, or the follower's
post-indirection loop. -/
inductive Call
  | findO (dir : Option Nat) (p : List Char)
  | loopO (d : Nat) (p : List Char)
  | followO (obj : Option Nat)
  | followL (obj : Option Nat)
deriving Repr

/-- One interpreter for the mutually recursive trio `h_find_object` /
its segment loop / `h_follow_link`, written with an explicit step budget
`fuel` so that the (possibly cyclic) symlink re-entry is total; `none`
means the budget ran out (the C code would still be recursing).  The
third argument threads the current value of the `*out_of_fs`
out-parameter. -/
def run (dev : Dev) : Nat → Call → Option (List Char) → Option FindOut
  | 0, _, _ => none
  | f+1, .findO dir p, oof =>
      if specialHit dev dir p then some ⟨dir, oof⟩
      else if dev.is_mounted = false then some ⟨none, none⟩
      else run dev f (.loopO (dir.getD dev.root_dir) p) none
  | f+1, .loopO d p, oof =>
      if tokenOf p = ['.'] then
        (if restOf p = [] then some ⟨some d, oof⟩
         else run dev f (.loopO d (restOf p)) oof)
      else if tokenOf p = ['.', '.'] then
        (match parentOf dev d with
         | some par =>
             if restOf p = [] then some ⟨some par, oof⟩
             else run dev f (.loopO par (restOf p)) oof
         | none => some ⟨none, some (skipDividers (restOf p))⟩)
      else
        if (variantOf dev d).isDir = false ∧ tokenOf p ≠ [] then
          some ⟨none, oof⟩
        else
          match run dev f (.followO (if tokenOf p = [] then some d
                                     else yaffs_find_by_name dev d (tokenOf p))) oof with
          | none => none
          | some r =>
              if restOf p = [] then some r
              else
                match r.obj with
                | none => some ⟨none, r.out_of_fs⟩
                | some d2 => run dev f (.loopO d2 (restOf p)) r.out_of_fs
  | f+1, .followO obj, oof =>
      run dev f (.followL (obj.map (yaffs_get_equivalent_obj dev))) oof
  | f+1, .followL obj, oof =>
      match obj with
      | none => some ⟨none, oof⟩
      | some o =>
          match variantOf dev o with
          | .symlink tgt =>
              match run dev f (.findO (match tgt with
                  | [] => parentOf dev o
                  | c :: _ => if is_path_divider c then none else parentOf dev o) tgt) oof with
              | none => none
              | some r => run dev f (.followL r.obj) r.out_of_fs
          | _ => some ⟨some o, oof⟩

/-- Source `h_find_object`: special case, `*out_of_fs = NULL`, mount
check, default the start to the volume root, then the segment loop. -/
def h_find_object (dev : Dev) (fuel : Nat) (dir : Option Nat) (p : List Char)
    (oof : Option (List Char)) : Option FindOut :=
  run dev fuel (.findO dir p) oof

/-- The segment-walking loop of `h_find_object` (its `while(dir)` body). -/
def find_loop (dev : Dev) (fuel : Nat) (d : Nat) (p : List Char)
    (oof : Option (List Char)) : Option FindOut :=
  run dev fuel (.loopO d p) oof

/-- Source `h_follow_link`: hardlink indirection once at entry, then
re-enter the resolver while the node is a symlink. -/
def h_follow_link (dev : Dev) (fuel : Nat) (obj : Option Nat)
    (oof : Option (List Char)) : Option FindOut :=
  run dev fuel (.followO obj) oof

/-! Concrete objects and volumes used by witnesses and counterexamples. -/

/-- A concrete object: the volume root directory. -/
def objRoot : Obj :=
  { oid := 1, parent := none, variant := .directory, name := [],
    children := [2, 3, 4, 5], yst_mode := 0o40755, yst_atime := 1,
    yst_ctime := 2, yst_mtime := 3, yst_rdev := 0, fileLength := 0, nlink := 2 }

/-- A concrete object: a regular file named `f`. -/
def objF : Obj :=
  { oid := 2, parent := some 1, variant := .file, name := ['f'],
    children := [], yst_mode := 0o100644, yst_atime := 11,
    yst_ctime := 12, yst_mtime := 13, yst_rdev := 0, fileLength := 1000, nlink := 1 }

/-- A concrete object: a symlink named `s` whose relative alias is `f`. -/
def objS : Obj :=
  { oid := 3, parent := some 1, variant := .symlink ['f'], name := ['s'],
    children := [], yst_mode := 0o120777, yst_atime := 0,
    yst_ctime := 0, yst_mtime := 0, yst_rdev := 0, fileLength := 0, nlink := 1 }

/-- A concrete object: a hardlink named `h` whose equivalent object is the file. -/
def objH : Obj :=
  { oid := 4, parent := some 1, variant := .hardlink 2, name := ['h'],
    children := [], yst_mode := 0o100644, yst_atime := 0,
    yst_ctime := 0, yst_mtime := 0, yst_rdev := 0, fileLength := 0, nlink := 1 }

/-- A concrete object: an empty subdirectory named `d`. -/
def objD : Obj :=
  { oid := 5, parent := some 1, variant := .directory, name := ['d'],
    children := [], yst_mode := 0o40755, yst_atime := 0,
    yst_ctime := 0, yst_mtime := 0, yst_rdev := 0, fileLength := 0, nlink := 2 }

/-- A concrete mounted volume holding the five objects above. -/
def devW : Dev :=
  { objs := [objRoot, objF, objS, objH, objD], root_dir := 1,
    is_mounted := true, data_bytes_per_chunk := 512 }

/-- A concrete unmounted volume whose root directory is named `x`. -/
def devU : Dev :=
  { objs := [{ oid := 1, parent := none, variant := .directory, name := ['x'],
               children := [], yst_mode := 0o40755, yst_atime := 0,
               yst_ctime := 0, yst_mtime := 0, yst_rdev := 0, fileLength := 0,
               nlink := 2 }],
    root_dir := 1, is_mounted := false, data_bytes_per_chunk := 512 }

/-- Claim C1: whenever the resolver's segment loop meets a `..` segment
while the current directory is the volume root (no parent), it returns
the escape signal — object `none` together with a non-`none`
`out_of_fs` suffix, namely the unconsumed remainder of the path with its
leading separators skipped — and not the not-found failure
`⟨none, none⟩`. -/
theorem find_loop_dotdot_at_root_escapes (dev : Dev) (f : Nat) (d : Nat)
    (p : List Char) (oof : Option (List Char))
    (hroot : parentOf dev d = none)
    (htok : tokenOf p = ['.', '.']) :
    find_loop dev (f+1) d p oof =
      some ⟨none, some (skipDividers (restOf p))⟩ := by
  unfold find_loop
  simp [run, htok, hroot]

/-- Witness for C1: resolving `../a` from the root of the concrete volume
escapes with suffix `a`. -/
theorem find_loop_dotdot_at_root_escapes_witness :
    find_loop devW 10 1 ['.', '.', '/', 'a'] none = some ⟨none, some ['a']⟩ := by
  have h := find_loop_dotdot_at_root_escapes devW 9 1 ['.', '.', '/', 'a'] none
    (by decide) (by decide)
  rw [h]
  decide

/-- Claim C3 (counterexample): on an unmounted volume, a lookup whose
path has no separator and equals the starting reference's own name still
returns that object — the special case at the top of `h_find_object`
precedes the mount check, so "never returns an object" is false. -/
theorem h_find_object_unmounted_special_case_returns_object :
    devU.is_mounted = false ∧
      h_find_object devU 5 (some 1) ['x'] none = some ⟨some 1, none⟩ := by
  decide

/-- Claim C3 (amended): if the volume is not mounted when resolution
starts, path resolution fails as a plain unsuccessful lookup
(`⟨none, none⟩`, surfaced as `ENOENT`) — except when the separator-free
special case applies, since that check precedes the mount check and
returns the starting reference directly. -/
theorem h_find_object_unmounted_fails (dev : Dev) (f : Nat) (dir : Option Nat)
    (p : List Char) (oof : Option (List Char))
    (hspec : specialHit dev dir p = false)
    (hm : dev.is_mounted = false) :
    h_find_object dev (f+1) dir p oof = some ⟨none, none⟩ := by
  unfold h_find_object
  simp [run, hspec, hm]

/-- Witness for the amended C3: a lookup of `y` on the unmounted volume
(whose root is named `x`, so the special case misses) fails. -/
theorem h_find_object_unmounted_fails_witness :
    h_find_object devU 5 (some 1) ['y'] none = some ⟨none, none⟩ :=
  h_find_object_unmounted_fails devU 4 (some 1) ['y'] none (by decide) (by decide)

/-! The chown handler. -/

/-- Return value and errno of a handler that yields a plain status. -/
structure StatusOut where
  ret : Int
  errno : Errno
deriving DecidableEq, Repr

/-- Source `ycb_chown`: ignores its arguments, sets `errno = 0` and
returns 0. -/
def ycb_chown (_loc _owner _group : Nat) : StatusOut :=
  ⟨0, .EOK⟩

/-- Claim C4 (counterexample): a concrete chown call succeeds (returns 0
with errno cleared), so "fails with ENOSYS" is false. -/
theorem ycb_chown_not_enosys :
    ycb_chown 1 2 3 = ⟨0, .EOK⟩ ∧ (ycb_chown 1 2 3).errno ≠ .ENOSYS := by
  decide

/-- Claim C4 (amended): for every invocation of the ownership-change
entry point, regardless of arguments, the operation is a successful
no-op: it returns 0 and sets errno to 0 (never `ENOSYS`). -/
theorem ycb_chown_noop_success (loc owner group : Nat) :
    ycb_chown loc owner group = ⟨0, .EOK⟩ := rfl

/-! The chmod handler. -/

/-- Outcome of `ycb_fchmod`: the object's stored mode after the call,
the return value and errno. -/
structure ChmodOut where
  newMode : Nat
  ret : Int
  errno : Errno
deriving DecidableEq, Repr

/-- Source `ycb_fchmod` over a single object, with the stored mode made
explicit.  The validity test `mode & ~0777u` is rendered as `512 ≤ mode`
(some bit outside the low 9 is set iff the value is at least `2^9`), and
the merge `(yst_mode & ~0777u) | mode` as `stored - stored % 512 + mode`
(the two operands have disjoint bits once `mode < 512`).  `resolves`
stands for `yaffs_get_equivalent_obj` yielding a non-null object and
`flushOk` for the engine's `yaffs_flush_file` reporting `YAFFS_OK`
(both modelled from the spec's primitive surface). -/
def ycb_fchmod (stored : Nat) (read_only : Bool) (resolves : Bool)
    (flushOk : Bool) (mode : Nat) : ChmodOut :=
  if 512 ≤ mode then ⟨stored, -1, .EINVAL⟩
  else if read_only then ⟨stored, -1, .EROFS⟩
  else if resolves = false then ⟨stored, -1, .Eio⟩
  else
    if flushOk then ⟨stored - stored % 512 + mode, 0, .EOK⟩
    else ⟨stored - stored % 512 + mode, -1, .Eio⟩

/-- Claim C6: a chmod whose mode has any bit outside the low 9
permission bits fails with `EINVAL` and leaves the stored mode unchanged
(the check precedes every other step); for a valid mode on a writable
volume with a resolvable object, the 9 permission bits are merged into
the stored mode (the low 9 bits become `mode`) and every other stored
bit is preserved (the quotient by `2^9` is unchanged). -/
theorem ycb_fchmod_mode_validation (stored mode : Nat) (flushOk : Bool) :
    (512 ≤ mode → ∀ ro rv : Bool,
        ycb_fchmod stored ro rv flushOk mode = ⟨stored, -1, .EINVAL⟩)
    ∧ (mode < 512 →
        (ycb_fchmod stored false true flushOk mode).newMode % 512 = mode
        ∧ (ycb_fchmod stored false true flushOk mode).newMode / 512 = stored / 512) := by
  constructor
  · intro h ro rv
    simp [ycb_fchmod, h]
  · intro h
    have hnot : ¬ 512 ≤ mode := by omega
    cases flushOk <;> simp [ycb_fchmod, hnot] <;> omega

/-- Witness for C6: mode `0o1777` (with a bit outside the low 9) is
rejected leaving mode `0o40755` intact; mode `0o700` is merged into
`0o40755` with the directory type bits preserved. -/
theorem ycb_fchmod_mode_validation_witness :
    (ycb_fchmod 0o40755 true false true 0o1777 = ⟨0o40755, -1, .EINVAL⟩)
    ∧ ((ycb_fchmod 0o40755 false true true 0o700).newMode % 512 = 0o700
       ∧ (ycb_fchmod 0o40755 false true true 0o700).newMode / 512 = 0o40755 / 512) := by
  refine ⟨?_, ?_⟩
  · exact (ycb_fchmod_mode_validation 0o40755 0o1777 true).1 (by decide) true false
  · exact (ycb_fchmod_mode_validation 0o40755 0o700 true).2 (by decide)

/-! The file read and write handlers. -/

/-- Outcome of `ycb_file_read`: the byte count actually passed to the
engine's read primitive, the handler's return value, and errno. -/
structure FileReadOut where
  passedLen : Nat
  ret : Int
  errno : Errno
deriving DecidableEq, Repr

/-- Source `ycb_file_read`, clamp part (`ol`/`maxread`/`count` lines),
with the engine state abstracted: `file_length` is
`yaffs_get_obj_length(obj)` (engine primitive, modelled from the spec). -/
def readClamp (file_length off : Int) (count : Nat) : Nat :=
  let maxread : Nat := if off ≥ file_length then 0 else (file_length - off).toNat
  if count > maxread then maxread else count

/-- Source `ycb_file_read`, continued: invoke the engine with the clamped
count and translate a negative result to `ENOSPC`. -/
def ycb_file_read (file_length off : Int) (count : Nat)
    (rd : Int → Nat → Int) : FileReadOut :=
  if rd off (readClamp file_length off count) < 0 then
    ⟨readClamp file_length off count, -1, .ENOSPC⟩
  else
    ⟨readClamp file_length off count, rd off (readClamp file_length off count), .EOK⟩

/-- Source `ycb_file_write` for one call: `wr off len` is the result of
`yaffs_wr_file` (engine primitive, modelled from the spec); a read-only
volume is rejected with `EROFS`, and a negative engine result is
surfaced as `ENOSPC`. -/
def ycb_file_write (read_only : Bool) (off : Int) (count : Nat)
    (wr : Int → Nat → Int) : StatusOut :=
  if read_only then ⟨-1, .EROFS⟩
  else if wr off count < 0 then ⟨-1, .ENOSPC⟩
  else ⟨wr off count, .EOK⟩

/-- Claim C7: the length handed to the engine read primitive is
`min N (max 0 (L - off))` for requested length `N`, file length `L` and
offset `off` — so a read never asks for bytes past the logical end of
file — and a read at `off ≥ L` passes zero bytes and succeeds with
result 0 (not an error), given that the engine returns 0 for a
zero-length read. -/
theorem ycb_file_read_clamps_to_eof (L off : Int) (count : Nat)
    (rd : Int → Nat → Int) (hrd : rd off 0 = 0) :
    (ycb_file_read L off count rd).passedLen = min count (max 0 (L - off)).toNat
    ∧ (off ≥ L → ycb_file_read L off count rd = ⟨0, 0, .EOK⟩) := by
  have hclamp : readClamp L off count = min count (max 0 (L - off)).toNat := by
    unfold readClamp
    by_cases h : off ≥ L
    · simp only [if_pos h]
      split <;> omega
    · simp only [if_neg h]
      split <;> omega
  have hlen : (ycb_file_read L off count rd).passedLen = readClamp L off count := by
    unfold ycb_file_read
    split <;> rfl
  refine ⟨hlen.trans hclamp, ?_⟩
  intro h
  have h0 : readClamp L off count = 0 := by
    rw [hclamp]; omega
  unfold ycb_file_read
  rw [h0, hrd]
  simp

/-- Witness for C7: a 1-byte read at offset 12 of a 10-byte file passes
length 0 to the engine and returns 0 without error. -/
theorem ycb_file_read_clamps_to_eof_witness :
    (ycb_file_read 10 12 1 (fun _ _ => 0)).passedLen = min 1 (max 0 ((10 : Int) - 12)).toNat
    ∧ ((12 : Int) ≥ 10 → ycb_file_read 10 12 1 (fun _ _ => 0) = ⟨0, 0, .EOK⟩) :=
  ycb_file_read_clamps_to_eof 10 12 1 (fun _ _ => 0) rfl

/-- Claim C9: when the engine read or write primitive reports failure (a
negative byte count), the handler fails with errno `ENOSPC` — not `EIO` —
whatever the engine's actual reason. -/
theorem engine_failure_maps_to_enospc (L off : Int) (count : Nat)
    (rd wr : Int → Nat → Int)
    (hrd : ∀ c, rd off c < 0) (hwr : wr off count < 0) :
    ((ycb_file_read L off count rd).ret = -1
      ∧ (ycb_file_read L off count rd).errno = .ENOSPC
      ∧ (ycb_file_read L off count rd).errno ≠ .Eio)
    ∧ ((ycb_file_write false off count wr).ret = -1
      ∧ (ycb_file_write false off count wr).errno = .ENOSPC
      ∧ (ycb_file_write false off count wr).errno ≠ .Eio) := by
  constructor
  · simp [ycb_file_read, hrd _]
  · simp [ycb_file_write, hwr]

/-- Witness for C9: an engine that always fails makes both a read and a
write at offset 0 fail with `ENOSPC`. -/
theorem engine_failure_maps_to_enospc_witness :
    ((ycb_file_read 10 0 4 (fun _ _ => -1)).ret = -1
      ∧ (ycb_file_read 10 0 4 (fun _ _ => -1)).errno = .ENOSPC
      ∧ (ycb_file_read 10 0 4 (fun _ _ => -1)).errno ≠ .Eio)
    ∧ ((ycb_file_write false 0 4 (fun _ _ => -1)).ret = -1
      ∧ (ycb_file_write false 0 4 (fun _ _ => -1)).errno = .ENOSPC
      ∧ (ycb_file_write false 0 4 (fun _ _ => -1)).errno ≠ .Eio) :=
  engine_failure_maps_to_enospc 10 0 4 (fun _ _ => -1) (fun _ _ => -1)
    (fun _ => by norm_num) (by norm_num)

/-! The mknod handler. -/

/-- POSIX file-type constants used by the handler. -/
def S_IFMT : Nat := 0o170000

/-- Directory file-type bits. -/
def S_IFDIR : Nat := 0o040000

/-- Regular-file file-type bits. -/
def S_IFREG : Nat := 0o100000

/-- Symlink file-type bits. -/
def S_IFLNK : Nat := 0o120000

/-- The `S_ISDIR` test on a mode value. -/
def S_ISDIR (m : Nat) : Bool := m &&& S_IFMT == S_IFDIR

/-- The `S_ISREG` test on a mode value. -/
def S_ISREG (m : Nat) : Bool := m &&& S_IFMT == S_IFREG

/-- Outcome of `ycb_mknod`: return value, errno, and — when the engine
create primitive ran successfully — the name it was given together with
whether a directory (`true`) or a file (`false`) was created. -/
structure MknodOut where
  ret : Int
  errno : Errno
  created : Option (List Char × Bool)
deriving DecidableEq, Repr

/-- Source `ycb_mknod` over one parent directory: the name is the given
path cut at the first `'/'` (`strchr` + `*s = '\0'`), then the read-only
check, the duplicate check against the parent's child names, and the
typed engine create.  `childNames` is the name set seen by
`yaffs_find_by_name` and `engineOk` the success of
`yaffs_create_dir`/`yaffs_create_file` (engine primitives, modelled from
the spec). -/
def ycb_mknod (path : List Char) (mode : Nat) (read_only : Bool)
    (childNames : List (List Char)) (engineOk : Bool) : MknodOut :=
  if read_only then ⟨-1, .EROFS, none⟩
  else if childNames.contains (path.takeWhile (fun c => c ≠ '/')) then
    ⟨-1, .EEXIST, none⟩
  else if S_ISDIR mode then
    (if engineOk then ⟨0, .EOK, some (path.takeWhile (fun c => c ≠ '/'), true)⟩
     else ⟨-1, .ENOSPC, none⟩)
  else if S_ISREG mode then
    (if engineOk then ⟨0, .EOK, some (path.takeWhile (fun c => c ≠ '/'), false)⟩
     else ⟨-1, .ENOSPC, none⟩)
  else ⟨-1, .ENOSYS, none⟩

/-- Claim C2 (counterexample): a create call whose leaf name `a/b`
contains a separator is not rejected — it succeeds and creates an object
(named `a`), so "rejects the request; does not create any object" is
false. -/
theorem ycb_mknod_separator_not_rejected :
    (['a', '/', 'b'].contains '/') = true ∧
      ycb_mknod ['a', '/', 'b'] 0o100644 false [] true
        = ⟨0, .EOK, some (['a'], false)⟩ := by
  decide

/-- Claim C2 (amended): a separator in the leaf name does not cause a
rejection; the name is truncated at the first separator and a single
leaf level with the truncated (separator-free) name is created, subject
to the usual read-only/duplicate/type checks. -/
theorem ycb_mknod_truncates_at_separator (path : List Char) (mode : Nat)
    (childNames : List (List Char))
    (hdup : childNames.contains (path.takeWhile (fun c => c ≠ '/')) = false)
    (hreg : S_ISREG mode = true) :
    ycb_mknod path mode false childNames true
      = ⟨0, .EOK, some (path.takeWhile (fun c => c ≠ '/'), false)⟩
    ∧ '/' ∉ path.takeWhile (fun c => c ≠ '/') := by
  constructor
  · have hd : ¬ S_ISDIR mode = true := by
      intro hd
      have h1 : mode &&& S_IFMT = S_IFDIR := by
        simpa [S_ISDIR] using hd
      have h2 : mode &&& S_IFMT = S_IFREG := by
        simpa [S_ISREG] using hreg
      rw [h1] at h2
      simp [S_IFDIR, S_IFREG] at h2
    unfold ycb_mknod
    rw [if_neg (by simp), if_neg (by simpa using hdup), if_neg hd, if_pos hreg,
      if_pos rfl]
  · intro hmem
    have := List.mem_takeWhile_imp hmem
    simp at this

/-- Witness for the amended C2: creating `a/b` in an empty parent
produces a file named just `a`. -/
theorem ycb_mknod_truncates_at_separator_witness :
    ycb_mknod ['a', '/', 'b'] 0o100644 false [['z']] true
      = ⟨0, .EOK, some ((['a', '/', 'b'].takeWhile (fun c => c ≠ '/')), false)⟩
    ∧ '/' ∉ ['a', '/', 'b'].takeWhile (fun c => c ≠ '/') :=
  ycb_mknod_truncates_at_separator ['a', '/', 'b'] 0o100644 [['z']]
    (by decide) (by decide)

/-! The directory read handler and its cursor. -/

/-- One emitted directory entry (`struct dirent`): the hardlink-resolved
inode number and the child's stored name. -/
structure DirEntry where
  d_ino : Nat
  d_name : List Char
deriving DecidableEq, Repr

/-- The per-open-handle state the handler touches: the byte offset
(`iop->offset`) and the cursor (`iop->data1`), modelled as the index of
the next child to emit (`none` = end of list / empty). -/
structure DirState where
  offset : Int
  data1 : Option Nat
deriving DecidableEq, Repr

/-- Outcome of `ycb_dir_read`: the entries written to the buffer, the
returned byte count, and the handle state after the call. -/
structure DirReadOut where
  entries : List DirEntry
  readlen : Nat
  state : DirState
deriving DecidableEq, Repr

/-- One entry for the child with id `cid`: inode from
`yaffs_get_equivalent_obj(...)->obj_id`, name from `yaffs_get_obj_name`. -/
def mkDirEntry (dev : Dev) (cid : Nat) : DirEntry :=
  ⟨yaffs_get_equivalent_obj dev cid, nameOf dev cid⟩

/-- The emission loop of `ycb_dir_read`: emit up to `maxcount` entries
walking the sibling list from the cursor; returns the entries, the
number emitted, and the final cursor. -/
def dir_read_loop (dev : Dev) (children : List Nat) :
    Nat → Option Nat → (List DirEntry × Nat × Option Nat)
  | 0, cur => ([], 0, cur)
  | _+1, none => ([], 0, none)
  | n+1, some j =>
      match dir_read_loop dev children n
        (if j + 1 < children.length then some (j + 1) else none) with
      | (es, k, cur) =>
          ((match children.get? j with
            | some cid => mkDirEntry dev cid
            | none => ⟨0, []⟩) :: es, k + 1, cur)

/-- Source `ycb_dir_read` over one directory: `maxcount` is the buffer
capacity in whole records (`count / sizeof(struct dirent)`); a byte
offset of zero (re)sets the cursor to the first child before emitting;
the byte offset advances by the bytes emitted. -/
def ycb_dir_read (dev : Dev) (children : List Nat) (s : DirState)
    (count sizeofDirent : Nat) : DirReadOut :=
  match dir_read_loop dev children (count / sizeofDirent)
      (if s.offset = 0 then (if children.isEmpty then none else some 0)
       else s.data1) with
  | (es, i, cur) => ⟨es, i * sizeofDirent, ⟨s.offset + (i * sizeofDirent : Nat), cur⟩⟩

/-- Claim C10: a directory read whose buffer is smaller than one
directory-entry record returns 0 bytes and leaves the handle's byte
offset unchanged, and a subsequent read of any size from the resulting
state enumerates exactly what it would have from the original state. -/
theorem ycb_dir_read_small_buffer_preserves_position (dev : Dev)
    (children : List Nat) (s : DirState) (count sizeofDirent : Nat)
    (hsmall : count < sizeofDirent) :
    (ycb_dir_read dev children s count sizeofDirent).readlen = 0
    ∧ (ycb_dir_read dev children s count sizeofDirent).state.offset = s.offset
    ∧ ∀ count2,
        ycb_dir_read dev children
          (ycb_dir_read dev children s count sizeofDirent).state count2 sizeofDirent
        = ycb_dir_read dev children s count2 sizeofDirent := by
  have hmax : count / sizeofDirent = 0 := Nat.div_eq_of_lt hsmall
  by_cases h0 : s.offset = 0
  · refine ⟨?_, ?_, ?_⟩ <;>
      simp [ycb_dir_read, hmax, dir_read_loop, h0]
  · refine ⟨?_, ?_, ?_⟩ <;>
      simp [ycb_dir_read, hmax, dir_read_loop, h0]

/-- Witness for C10: a 3-byte read against 16-byte records at offset 7
returns nothing, keeps the offset, and a later 32-byte read behaves as
if the small read had not happened. -/
theorem ycb_dir_read_small_buffer_preserves_position_witness :
    (ycb_dir_read devW [2, 3] ⟨7, some 1⟩ 3 16).readlen = 0
    ∧ (ycb_dir_read devW [2, 3] ⟨7, some 1⟩ 3 16).state.offset = (⟨7, some 1⟩ : DirState).offset
    ∧ ycb_dir_read devW [2, 3] (ycb_dir_read devW [2, 3] ⟨7, some 1⟩ 3 16).state 32 16
        = ycb_dir_read devW [2, 3] ⟨7, some 1⟩ 32 16 := by
  have h := ycb_dir_read_small_buffer_preserves_position devW [2, 3]
    ⟨7, some 1⟩ 3 16 (by decide)
  exact ⟨h.1, h.2.1, h.2.2 32⟩

/-! The stat handler. -/

/-- The complement of `S_IFMT` in the 32-bit mode word
(`~(unsigned)S_IFMT` truncated to the width of `yst_mode`). -/
def NOT_S_IFMT : Nat := 0xFFFF0FFF

/-- The POSIX metadata record populated by `ycb_fstat`. -/
structure StatBuf where
  st_ino : Nat
  st_mode : Nat
  st_nlink : Nat
  st_rdev : Nat
  st_size : Nat
  st_blksize : Nat
  st_blocks : Nat
  st_atime : Nat
  st_ctime : Nat
  st_mtime : Nat
deriving DecidableEq, Repr

/-- Source `ycb_fstat`: resolve hardlink indirection, then populate the
buffer — inode from the object id, mode with the file-type bits cleared
and re-overlaid from the variant, link count and length from the engine
(modelled from the spec's get-link-count / get-length primitives), block
size from the volume's allocation unit, block count from the
`(size + blksize - 1) / blksize` formula, timestamps copied verbatim.
`none` models dereferencing an id absent from the graph. -/
def ycb_fstat (dev : Dev) (i : Nat) : Option StatBuf :=
  match dev.find (yaffs_get_equivalent_obj dev i) with
  | none => none
  | some o =>
      some { st_ino := o.oid
             st_mode :=
               if (o.variant).isDir then (o.yst_mode &&& NOT_S_IFMT) ||| S_IFDIR
               else if (o.variant).isSymlink then (o.yst_mode &&& NOT_S_IFMT) ||| S_IFLNK
               else if (o.variant).isFile then (o.yst_mode &&& NOT_S_IFMT) ||| S_IFREG
               else o.yst_mode &&& NOT_S_IFMT
             st_nlink := o.nlink
             st_rdev := o.yst_rdev
             st_size := o.fileLength
             st_blksize := dev.data_bytes_per_chunk
             st_blocks := (o.fileLength + dev.data_bytes_per_chunk - 1)
               / dev.data_bytes_per_chunk
             st_atime := o.yst_atime
             st_ctime := o.yst_ctime
             st_mtime := o.yst_mtime }

/-- Spec-side reading of "mode = stored mode with the type bits overlaid
by variant": the file-type bits contributed by each variant. -/
def typeBitsOf : Variant → Nat
  | .directory => S_IFDIR
  | .symlink _ => S_IFLNK
  | .file => S_IFREG
  | _ => 0

/-- Claim C8: stat, after hardlink indirection to `o`, reports inode
`o.oid`, mode `stored-mode-with-type-bits-overlaid`, size from the
engine, block size equal to the volume's allocation unit, block count
equal to the ceiling of size over block size (stated both via Mathlib's
lawful `⌈/⌉` and by the defining bounds `size ≤ blksize·blocks <
size + blksize`), and the three timestamps verbatim. -/
theorem ycb_fstat_fields (dev : Dev) (i : Nat) (o : Obj)
    (hfind : dev.find (yaffs_get_equivalent_obj dev i) = some o)
    (hbs : 0 < dev.data_bytes_per_chunk) :
    ycb_fstat dev i = some
      { st_ino := o.oid
        st_mode := (o.yst_mode &&& NOT_S_IFMT) ||| typeBitsOf o.variant
        st_nlink := o.nlink
        st_rdev := o.yst_rdev
        st_size := o.fileLength
        st_blksize := dev.data_bytes_per_chunk
        st_blocks := o.fileLength ⌈/⌉ dev.data_bytes_per_chunk
        st_atime := o.yst_atime
        st_ctime := o.yst_ctime
        st_mtime := o.yst_mtime }
    ∧ o.fileLength ≤
        dev.data_bytes_per_chunk * (o.fileLength ⌈/⌉ dev.data_bytes_per_chunk)
    ∧ dev.data_bytes_per_chunk * (o.fileLength ⌈/⌉ dev.data_bytes_per_chunk)
        < o.fileLength + dev.data_bytes_per_chunk := by
  refine ⟨?_, ?_, ?_⟩
  · unfold ycb_fstat
    rw [hfind]
    cases hv : o.variant <;>
      simp [hv, typeBitsOf, Variant.isDir, Variant.isSymlink, Variant.isFile,
        Nat.ceilDiv_eq_add_pred_div]
  · exact (ceilDiv_le_iff_le_mul hbs).1 le_rfl
  · by_cases hz : o.fileLength ⌈/⌉ dev.data_bytes_per_chunk = 0
    · rw [hz]
      omega
    · obtain ⟨j, hj⟩ : ∃ j, o.fileLength ⌈/⌉ dev.data_bytes_per_chunk = j + 1 :=
        ⟨o.fileLength ⌈/⌉ dev.data_bytes_per_chunk - 1, by omega⟩
      have hle : ¬ (o.fileLength ⌈/⌉ dev.data_bytes_per_chunk ≤ j) := by omega
      rw [ceilDiv_le_iff_le_mul hbs] at hle
      rw [hj, Nat.mul_succ]
      exact Nat.add_lt_add_right (Nat.lt_of_not_le hle) _

/-- Witness for C8: stat of the hardlink object (id 4) resolves to the
file object and reports its metadata, with block count 2 for a 1000-byte
file on 512-byte chunks. -/
theorem ycb_fstat_fields_witness :
    ycb_fstat devW 4 = some
      { st_ino := objF.oid
        st_mode := (objF.yst_mode &&& NOT_S_IFMT) ||| typeBitsOf objF.variant
        st_nlink := objF.nlink
        st_rdev := objF.yst_rdev
        st_size := objF.fileLength
        st_blksize := devW.data_bytes_per_chunk
        st_blocks := objF.fileLength ⌈/⌉ devW.data_bytes_per_chunk
        st_atime := objF.yst_atime
        st_ctime := objF.yst_ctime
        st_mtime := objF.yst_mtime }
    ∧ objF.fileLength ≤
        devW.data_bytes_per_chunk * (objF.fileLength ⌈/⌉ devW.data_bytes_per_chunk)
    ∧ devW.data_bytes_per_chunk * (objF.fileLength ⌈/⌉ devW.data_bytes_per_chunk)
        < objF.fileLength + devW.data_bytes_per_chunk :=
  ycb_fstat_fields devW 4 objF (by decide) (by decide)

/-! Well-formedness of the object graph, and what the symlink follower
can return. -/

/-- Well-formedness of one object: its parent (if any) is a directory,
and if it is a hardlink its equivalent object is not itself a hardlink
(the spec's "the real target"). -/
def objOkB (dev : Dev) (o : Obj) : Bool :=
  (match o.parent with
   | none => true
   | some p => (variantOf dev p).isDir)
  && (match o.variant with
      | .hardlink e => !(variantOf dev e).isHardlink
      | _ => true)

/-- Well-formed volume: the root is a directory and every object in the
graph passes `objOkB`. -/
def WFdev (dev : Dev) : Prop :=
  (variantOf dev dev.root_dir).isDir = true
  ∧ ∀ o ∈ dev.objs, objOkB dev o = true

instance (dev : Dev) : Decidable (WFdev dev) := by
  unfold WFdev
  infer_instance

/-- A directory variant is not a hardlink variant. -/
lemma isDir_not_hardlink {v : Variant} (h : v.isDir = true) :
    v.isHardlink = false := by
  cases v <;> simp_all [Variant.isDir, Variant.isHardlink]

/-- In a well-formed volume, any parent reached through `parentOf` is a
directory. -/
lemma parentOf_isDir {dev : Dev} (hwf : WFdev dev) {d p : Nat}
    (h : parentOf dev d = some p) : (variantOf dev p).isDir = true := by
  unfold parentOf at h
  cases hfind : dev.find d with
  | none =>
      rw [hfind] at h
      exact Option.noConfusion h
  | some o =>
      rw [hfind] at h
      have hp : o.parent = some p := h
      have hok := hwf.2 o (List.mem_of_find?_eq_some hfind)
      unfold objOkB at hok
      rw [hp] at hok
      simp only [Bool.and_eq_true] at hok
      exact hok.1

/-- In a well-formed volume, hardlink indirection never lands on a
hardlink. -/
lemma equiv_not_hardlink {dev : Dev} (hwf : WFdev dev) (o : Nat) :
    (variantOf dev (yaffs_get_equivalent_obj dev o)).isHardlink = false := by
  unfold yaffs_get_equivalent_obj
  cases hv : variantOf dev o with
  | hardlink e =>
      have hv2 := hv
      unfold variantOf at hv2
      cases hfind : dev.find o with
      | none =>
          rw [hfind] at hv2
          exact Variant.noConfusion hv2
      | some ob =>
          rw [hfind] at hv2
          have hob : ob.variant = .hardlink e := hv2
          have hok := hwf.2 ob (List.mem_of_find?_eq_some hfind)
          unfold objOkB at hok
          rw [hob] at hok
          simp only [Bool.and_eq_true, Bool.not_eq_true'] at hok
          exact hok.2
  | file => simp [hv, Variant.isHardlink]
  | directory => simp [hv, Variant.isHardlink]
  | symlink tgt => simp [hv, Variant.isHardlink]
  | special => simp [hv, Variant.isHardlink]
  | unknown => simp [hv, Variant.isHardlink]

/-- The invariant threaded through the resolver: the (possibly null)
object reference at hand is not a hardlink. -/
def optNotHL (dev : Dev) : Option Nat → Prop
  | none => True
  | some o => (variantOf dev o).isHardlink = false

/-- In a well-formed volume, `parentOf` always satisfies the
no-hardlink invariant. -/
lemma optNotHL_parentOf {dev : Dev} (hwf : WFdev dev) (o : Nat) :
    optNotHL dev (parentOf dev o) := by
  cases hp : parentOf dev o with
  | none => trivial
  | some p =>
      show (variantOf dev p).isHardlink = false
      exact isDir_not_hardlink (parentOf_isDir hwf hp)

/-- Precondition under which a resolver call can produce no hardlink:
the walking loop's current directory and `h_find_object`'s explicit
start must not be hardlinks (the follower needs nothing, since it
applies hardlink indirection on entry). -/
def callOk (dev : Dev) : Call → Prop
  | .findO dir _ => optNotHL dev dir
  | .loopO d _ => optNotHL dev (some d)
  | .followO _ => True
  | .followL x => optNotHL dev x

/-- On a well-formed volume, every resolver call whose start satisfies
`callOk` returns a non-hardlink object (when it returns one at all). -/
lemma run_preserves_notHL (dev : Dev) (hwf : WFdev dev) :
    ∀ f c oof r, run dev f c oof = some r → callOk dev c →
      optNotHL dev r.obj := by
  intro f
  induction f with
  | zero => intro c oof r hr; simp [run] at hr
  | succ f ih =>
      intro c oof r hr hok
      cases c with
      | findO dir p =>
          simp only [run] at hr
          by_cases hs : specialHit dev dir p
          · rw [if_pos hs] at hr
            injection hr with h
            subst h
            exact hok
          · rw [if_neg hs] at hr
            by_cases hm : dev.is_mounted = false
            · rw [if_pos hm] at hr
              injection hr with h
              subst h
              trivial
            · rw [if_neg hm] at hr
              refine ih _ _ _ hr ?_
              cases dir with
              | none =>
                  show (variantOf dev dev.root_dir).isHardlink = false
                  exact isDir_not_hardlink hwf.1
              | some d => exact hok
      | loopO d p =>
          simp only [run] at hr
          by_cases h1 : tokenOf p = ['.']
          · rw [if_pos h1] at hr
            by_cases h2 : restOf p = []
            · rw [if_pos h2] at hr
              injection hr with h
              subst h
              exact hok
            · rw [if_neg h2] at hr
              exact ih _ _ _ hr hok
          · rw [if_neg h1] at hr
            by_cases h2 : tokenOf p = ['.', '.']
            · rw [if_pos h2] at hr
              split at hr
              · rename_i par hpar
                have hnp : optNotHL dev (some par) :=
                  isDir_not_hardlink (parentOf_isDir hwf hpar)
                by_cases h3 : restOf p = []
                · rw [if_pos h3] at hr
                  injection hr with h
                  subst h
                  exact hnp
                · rw [if_neg h3] at hr
                  exact ih _ _ _ hr hnp
              · injection hr with h
                subst h
                trivial
            · rw [if_neg h2] at hr
              by_cases h3 : (variantOf dev d).isDir = false ∧ tokenOf p ≠ []
              · rw [if_pos h3] at hr
                injection hr with h
                subst h
                trivial
              · rw [if_neg h3] at hr
                split at hr
                · exact Option.noConfusion hr
                · rename_i r1 hf
                  have hr1 : optNotHL dev r1.obj := ih _ _ _ hf trivial
                  by_cases h4 : restOf p = []
                  · rw [if_pos h4] at hr
                    injection hr with h
                    subst h
                    exact hr1
                  · rw [if_neg h4] at hr
                    split at hr
                    · injection hr with h
                      subst h
                      trivial
                    · rename_i d2 ho
                      refine ih _ _ _ hr ?_
                      rw [ho] at hr1
                      exact hr1
      | followO obj =>
          simp only [run] at hr
          refine ih _ _ _ hr ?_
          cases obj with
          | none => trivial
          | some o =>
              show optNotHL dev (some (yaffs_get_equivalent_obj dev o))
              exact equiv_not_hardlink hwf o
      | followL obj =>
          simp only [run] at hr
          split at hr
          · injection hr with h
            subst h
            trivial
          · rename_i o
            split at hr
            · rename_i tgt hv
              split at hr
              · exact Option.noConfusion hr
              · rename_i r1 hfo
                have hr1 : optNotHL dev r1.obj := by
                  refine ih _ _ _ hfo ?_
                  clear hv hfo
                  show optNotHL dev (match tgt with
                    | [] => parentOf dev o
                    | c :: _ => if is_path_divider c then none
                                else parentOf dev o)
                  cases tgt with
                  | nil => exact optNotHL_parentOf hwf o
                  | cons c cs =>
                      show optNotHL dev (if is_path_divider c then none
                        else parentOf dev o)
                      by_cases hd : is_path_divider c = true
                      · rw [if_pos hd]
                        trivial
                      · rw [if_neg hd]
                        exact optNotHL_parentOf hwf o
                exact ih _ _ _ hr hr1
            · injection hr with h
              subst h
              exact hok

/-- The follower's loop hands back an object only from its non-symlink
exit arm. -/
lemma run_followL_not_symlink (dev : Dev) :
    ∀ f x oof r o, run dev f (.followL x) oof = some r → r.obj = some o →
      (variantOf dev o).isSymlink = false := by
  intro f
  induction f with
  | zero => intro x oof r o hr; simp [run] at hr
  | succ f ih =>
      intro x oof r o hr hro
      simp only [run] at hr
      split at hr
      · injection hr with h
        subst h
        exact Option.noConfusion hro
      · rename_i ob
        split at hr
        · rename_i tgt hv
          split at hr
          · exact Option.noConfusion hr
          · rename_i r1 hfo
            exact ih r1.obj r1.out_of_fs r o hr hro
        · rename_i hneq
          injection hr with h
          subst h
          have hob : ob = o := Option.some.inj hro
          subst hob
          cases hv : variantOf dev ob with
          | symlink tgt => exact (hneq tgt hv).elim
          | file => rfl
          | directory => rfl
          | hardlink e => rfl
          | special => rfl
          | unknown => rfl

/-- Claim C5: on a well-formed volume, whenever the symlink follower
terminates on an object, that object is not a Symlink (the loop only
exits on non-symlinks) and not a Hardlink-variant object (hardlink
indirection has been applied to whatever is returned). -/
theorem h_follow_link_terminal (dev : Dev) (fuel : Nat) (obj0 : Option Nat)
    (oof : Option (List Char)) (r : FindOut) (o : Nat)
    (hwf : WFdev dev)
    (hrun : h_follow_link dev fuel obj0 oof = some r)
    (hobj : r.obj = some o) :
    (variantOf dev o).isSymlink = false
    ∧ (variantOf dev o).isHardlink = false := by
  constructor
  · unfold h_follow_link at hrun
    cases fuel with
    | zero => simp [run] at hrun
    | succ f =>
        simp only [run] at hrun
        exact run_followL_not_symlink dev f _ oof r o hrun hobj
  · unfold h_follow_link at hrun
    have h := run_preserves_notHL dev hwf fuel (.followO obj0) oof r hrun trivial
    rw [hobj] at h
    exact h

/-- Witness for C5: following the symlink `s` (id 3) on the concrete
volume lands on the file (id 2), which is neither symlink nor hardlink. -/
theorem h_follow_link_terminal_witness :
    (variantOf devW 2).isSymlink = false
    ∧ (variantOf devW 2).isHardlink = false :=
  h_follow_link_terminal devW 10 (some 3) none ⟨some 2, none⟩ 2
    (by decide) (by decide) (by decide)

end RtemsYaffs
